import Mathlib

/-!
# Verification of the `Recognition` eigenface module

Shallow embedding of the face-recognition façade declared in
`src/recognition/Recognition.h`.  The repository ships only the header
(declarations, documentation comments, and the private data members); the
implementation file is not part of `src/`.  Accordingly, the data members and
constants below are taken from the header, while each operation's behaviour is
modelled from the specification (`spec.md`) and the header's own documentation
comments, as noted on each definition.

Real-valued quantities (pixels, eigenvalues, projection coordinates,
confidences) are modelled as rationals `ℚ`, keeping every definition
executable.
-/

/-- Header constant `EUCLIDIAN_DISTANCE` (value 0). -/
def EUCLIDIAN_DISTANCE : Nat := 0

/-- Header constant `MAHALANOBIS_DISTANCE` (value 1). -/
def MAHALANOBIS_DISTANCE : Nat := 1

/-- Header constant `FILE_SRC` (value 0). -/
def FILE_SRC : Nat := 0

/-- Header constant `DATABASE_SRC` (value 1). -/
def DATABASE_SRC : Nat := 1

/-- Header constant `DEFAULT_TRAINING_DATA_FILE`. -/
def DEFAULT_TRAINING_DATA_FILE : String := "trainingData.xml"

/-- Success status code returned by the façade's `int`-returning operations. -/
def RECOG_OK : Int := 0

/-- Failure status: no training images could be loaded (spec §7 "no images found"). -/
def ERR_NO_TRAINING_IMAGES : Int := 1

/-- Failure status: the external library PCA/projection call failed (spec §7). -/
def ERR_LIBRARY_CALL : Int := 2

/-- Failure status: file I/O failure — missing or corrupt file (spec §7). -/
def ERR_FILE_ACCESS : Int := 3

/-- An OpenCV `IplImage`, reduced to what the module observes: its dimensions
and its pixel data (a flat row-major list of intensities, modelled over `ℚ`). -/
structure IplImage where
  width : Nat
  height : Nat
  data : List ℚ
deriving DecidableEq, Repr

/-- Spec §3 `TrainingImage`: a raw face image paired with its subject
identifier.  In the header these appear as the parallel members `faceImages_`
and `personRealIDs_`. -/
structure TrainingImage where
  subjectID : Nat
  image : IplImage
deriving DecidableEq, Repr

/-- Header `RecognitionResult`: a recognized person identifier together with
the recognition confidence. -/
structure RecognitionResult where
  personID : Nat
  confidence : ℚ
deriving DecidableEq, Repr

/-- Spec §3 `Model`: mean face, ordered eigenfaces, ordered eigenvalues,
ordered training-face projections and the parallel subject identifiers.
These are the header members `averagedImage_`, `eigenVectors_`,
`eigenValues_`, `projectedTrainFaces_`, `personRealIDs_`. -/
structure Model where
  averagedImage : IplImage
  eigenVectors : List IplImage
  eigenValues : List ℚ
  projectedTrainFaces : List (List ℚ)
  personRealIDs : List Nat
deriving DecidableEq, Repr

/-- Spec §3 invariant: the projections sequence and the subject-identifier
sequence have the same length, and the eigenface and eigenvalue counts agree. -/
def Model.wf (m : Model) : Prop :=
  m.projectedTrainFaces.length = m.personRealIDs.length ∧
  m.eigenVectors.length = m.eigenValues.length

/-- State of one `Recognition` component instance: the configuration fields set
by `initialize`, the transient raw training images, and the (optional, owned)
trained `Model`.  Mirrors the private members of the header's class. -/
structure RecognitionState where
  recogThreshold : ℚ
  distanceType : Nat
  imageExtension : List Char
  defaultTrainingDataFile : String
  faceImages : List TrainingImage
  model : Option Model
deriving DecidableEq

/-- The state invariant: whatever model is held is well-formed. -/
def RecognitionState.wf (s : RecognitionState) : Prop :=
  match s.model with
  | none => True
  | some m => m.wf

/-- Capacity, in bytes, of the header member `char imageExtension[4]`
(`Recognition.h` line 157). -/
def IMAGE_EXTENSION_CAPACITY : Nat := 4

/-- A C-string copy (`strcpy`) of `src` into a buffer of the given byte
capacity writes `src.length + 1` bytes (the characters plus the NUL
terminator); it stays within bounds exactly when those bytes fit. -/
def strcpyInBounds (src : List Char) (capacity : Nat) : Prop :=
  src.length + 1 ≤ capacity

/-- `initialize` copies its `faceImageExtension` argument into the fixed
buffer `char imageExtension[4]`; the copy is memory-safe exactly when it stays
within the buffer's capacity. -/
def initializeExtensionSafe (faceImageExtension : List Char) : Prop :=
  strcpyInBounds faceImageExtension IMAGE_EXTENSION_CAPACITY

/-- Pointwise squared differences of two coordinate vectors. -/
def sqDiffs (a b : List ℚ) : List ℚ :=
  List.zipWith (fun x y => (x - y) * (x - y)) a b

/-- Squared Euclidean distance between two eigenspace coordinate vectors. -/
def euclideanDistSq (a b : List ℚ) : ℚ :=
  (sqDiffs a b).sum

/-- Squared Mahalanobis distance: each squared coordinate difference is
weighted by the reciprocal of the corresponding eigenvalue (a zero eigenvalue
contributes the unweighted difference, guarding the division). -/
def mahalanobisDistSq (eigenValues a b : List ℚ) : ℚ :=
  (List.zipWith (fun l d => if l = 0 then d else d / l) eigenValues (sqDiffs a b)).sum

/-- Distance used in closest-face computation, selected by the configured
`distanceType` (header: `EUCLIDIAN_DISTANCE` or `MAHALANOBIS_DISTANCE`). -/
def distSq (distanceType : Nat) (eigenValues a b : List ℚ) : ℚ :=
  if distanceType = MAHALANOBIS_DISTANCE then mahalanobisDistSq eigenValues a b
  else euclideanDistSq a b

/-- Modelled from the spec: the confidence score derived from a distance; the
spec fixes no formula, only that results are ranked by confidence and compared
against the threshold, so the model uses the monotone decreasing map
`d ↦ 1 / (1 + d)`. -/
def confidenceOfDistSq (d : ℚ) : ℚ := 1 / (1 + d)

/-- Modelled from the spec: the external library projection routine
(`cvEigenDecomposite`, missing with the implementation file) — the image,
centred on the mean face, is projected onto each eigenface in order. -/
def projectImage (m : Model) (img : IplImage) : List ℚ :=
  m.eigenVectors.map (fun ev =>
    (List.zipWith (fun p q => p * q)
      (List.zipWith (fun p q => p - q) img.data m.averagedImage.data) ev.data).sum)

/-- One candidate result per stored training face: its subject identifier
paired with the confidence of the distance from the projected query face to
that training face's stored projection, under the configured metric. -/
def scoreList (s : RecognitionState) (m : Model) (proj : List ℚ) : List RecognitionResult :=
  List.zipWith
    (fun pid trainProj =>
      { personID := pid
        confidence := confidenceOfDistSq (distSq s.distanceType m.eigenValues proj trainProj) })
    m.personRealIDs m.projectedTrainFaces

/-- Results ordered by decreasing confidence: `confGE a b` holds when `a`'s
confidence is at least `b`'s. -/
def confGE (a b : RecognitionResult) : Prop :=
  b.confidence ≤ a.confidence

instance : DecidableRel confGE :=
  fun a b => inferInstanceAs (Decidable (b.confidence ≤ a.confidence))

instance : IsTotal RecognitionResult confGE :=
  ⟨fun a b => le_total b.confidence a.confidence⟩

instance : IsTrans RecognitionResult confGE :=
  ⟨fun _ _ _ hab hbc => le_trans hbc hab⟩

/-! ## Serialization of the trained model

Spec §6: "Serialized model file: fixed structured format holding mean face,
eigenfaces, eigenvalues, projections, labels."  The file holds typed values
(the real code writes to an OpenCV XML storage), modelled as a list of typed
tokens; the training-face count and eigenface count are written once and size
the four sequences, mirroring the matrix dimensions of the real format. -/

/-- One typed value in the serialized training-data file. -/
inductive FileTok where
  | natTok (v : Nat)
  | ratTok (v : ℚ)
deriving DecidableEq, Repr

/-- Contents of one serialized training-data file. -/
abbrev FileData := List FileTok

/-- The file store visible to `saveTrainingData`/`loadTrainingData`: a map
from file names to contents, absent files mapping to `none`. -/
def FileStore : Type := String → Option FileData

/-- Serialize a natural (a count or a subject identifier). -/
def encNat (n : Nat) : FileData := [FileTok.natTok n]

/-- Serialize a rational scalar. -/
def encRat (q : ℚ) : FileData := [FileTok.ratTok q]

/-- Serialize a coordinate vector: its length, then its entries. -/
def encRatList (l : List ℚ) : FileData := encNat l.length ++ l.flatMap encRat

/-- Serialize an image: width, height, then its pixel data. -/
def encImage (img : IplImage) : FileData :=
  encNat img.width ++ encNat img.height ++ encRatList img.data

/-- Modelled from the spec: the fixed structured serialization of a `Model`
written by `saveTrainingData` (implementation file missing): training-face
count, eigenface count, mean face, eigenfaces, eigenvalues, projections,
subject labels. -/
def encodeModel (m : Model) : FileData :=
  encNat m.projectedTrainFaces.length ++
  encNat m.eigenVectors.length ++
  encImage m.averagedImage ++
  m.eigenVectors.flatMap encImage ++
  m.eigenValues.flatMap encRat ++
  m.projectedTrainFaces.flatMap encRatList ++
  m.personRealIDs.flatMap encNat

/-- Read one natural from the front of the file. -/
def decNat : FileData → Option (Nat × FileData)
  | FileTok.natTok v :: rest => some (v, rest)
  | _ => none

/-- Read one rational from the front of the file. -/
def decRat : FileData → Option (ℚ × FileData)
  | FileTok.ratTok v :: rest => some (v, rest)
  | _ => none

/-- Read exactly `n` consecutive values with the given reader. -/
def decCount {α : Type} (dec : FileData → Option (α × FileData)) :
    Nat → FileData → Option (List α × FileData)
  | 0, d => some ([], d)
  | n + 1, d =>
    match dec d with
    | none => none
    | some (a, d₁) =>
      match decCount dec n d₁ with
      | none => none
      | some (l, d₂) => some (a :: l, d₂)

/-- Read a length-prefixed coordinate vector. -/
def decRatList (d : FileData) : Option (List ℚ × FileData) :=
  (decNat d).bind fun nd => decCount decRat nd.1 nd.2

/-- Read an image: width, height, pixel data. -/
def decImage (d : FileData) : Option (IplImage × FileData) :=
  (decNat d).bind fun wd =>
  (decNat wd.2).bind fun hd =>
  (decRatList hd.2).map fun pxd => (⟨wd.1, hd.1, pxd.1⟩, pxd.2)

/-- Read a whole `Model`, in the order written by `encodeModel`. -/
def decModelAux (d : FileData) : Option (Model × FileData) :=
  (decNat d).bind fun td =>
  (decNat td.2).bind fun ed =>
  (decImage ed.2).bind fun ad =>
  (decCount decImage ed.1 ad.2).bind fun vd =>
  (decCount decRat ed.1 vd.2).bind fun wd =>
  (decCount decRatList td.1 wd.2).bind fun pd =>
  (decCount decNat td.1 pd.2).map fun sd =>
    (⟨ad.1, vd.1, wd.1, pd.1, sd.1⟩, sd.2)

/-- Modelled from the spec: deserialization performed by `loadTrainingData`;
a file is well-formed only if the whole content parses with nothing left. -/
def decodeModel (d : FileData) : Option Model :=
  match decModelAux d with
  | some (m, []) => some m
  | _ => none

/-- The result of the external library PCA call (`cvCalcEigenObjects`): mean
face, eigenfaces and eigenvalues.  Spec §2: the eigenspace math is "entirely
delegated to an external numerical/vision library". -/
structure PCAResult where
  averagedImage : IplImage
  eigenVectors : List IplImage
  eigenValues : List ℚ
deriving DecidableEq, Repr

namespace Recognition

/-- Modelled from the spec: `findClosestFaces` (implementation file missing) —
ranks all stored training projections by confidence against the projected test
face and keeps the best `resultsNo`; if the best confidence is below the
recognition threshold, a single "unknown" result with person identifier 0 is
returned instead (header doc, lines 130–138). -/
def findClosestFaces (s : RecognitionState) (m : Model)
    (projectedTestFace : List ℚ) (resultsNo : Nat) : List RecognitionResult :=
  match List.insertionSort confGE (scoreList s m projectedTestFace) with
  | [] => []
  | best :: rest =>
    if best.confidence < s.recogThreshold then [⟨0, best.confidence⟩]
    else (best :: rest).take resultsNo

/-- Modelled from the spec: the per-face body of `recognizeFaces` — a face
whose dimensions match the training images is projected into eigenspace and
ranked by `findClosestFaces`; the header requires matching dimensions
(line 86), so a mismatched face yields no results. -/
def recognizeOneFace (s : RecognitionState) (m : Model) (resultsNo : Nat)
    (face : IplImage) : List RecognitionResult :=
  if face.width = m.averagedImage.width ∧ face.height = m.averagedImage.height then
    findClosestFaces s m (projectImage m face) resultsNo
  else []

/-- Modelled from the spec: `recognizeFaces` (implementation file missing) —
for each query face, project it and collect its closest-face results; without
a trained model there is nothing to recognize against. -/
def recognizeFaces (s : RecognitionState) (faces : List IplImage)
    (resultsNo : Nat) : List RecognitionResult :=
  match s.model with
  | none => []
  | some m => faces.flatMap (recognizeOneFace s m resultsNo)

/-- Modelled from the spec: the header's `initialize` operation (the name is a
Lean keyword, hence `initializeConfig`; implementation file missing) — "sets
configuration; no computation performed": it stores the four configuration
arguments and touches nothing else. -/
def initializeConfig (recognitionThreshold : ℚ) (distanceType : Nat)
    (faceImageExtension : List Char) (defaultTrainingDataFile : String)
    (s : RecognitionState) : Int × RecognitionState :=
  (RECOG_OK,
    { s with
      recogThreshold := recognitionThreshold
      distanceType := distanceType
      imageExtension := faceImageExtension
      defaultTrainingDataFile := defaultTrainingDataFile })

/-- Modelled from the spec: `train` (implementation file missing) — the
training images already loaded from the manifest file or directory database
are passed in as `trainingImages`, and the external library PCA routine as the
fallible function `pca`.  Training fails if no images load or the library call
fails; otherwise the new `Model` replaces the old one: the library's mean
face, matched numbers of eigenfaces and eigenvalues, each training face's
projection, and the parallel subject identifiers.  The raw images are only
held transiently and are released once projected (spec §3). -/
def train (pca : List IplImage → Option PCAResult)
    (trainingImages : List TrainingImage) (s : RecognitionState) :
    Int × RecognitionState :=
  if trainingImages.isEmpty then (ERR_NO_TRAINING_IMAGES, s)
  else
    match pca (trainingImages.map TrainingImage.image) with
    | none => (ERR_LIBRARY_CALL, s)
    | some p =>
      let n := min p.eigenVectors.length p.eigenValues.length
      let basis : Model :=
        { averagedImage := p.averagedImage
          eigenVectors := p.eigenVectors.take n
          eigenValues := p.eigenValues.take n
          projectedTrainFaces := []
          personRealIDs := [] }
      let newModel : Model :=
        { basis with
          projectedTrainFaces := trainingImages.map (fun t => projectImage basis t.image)
          personRealIDs := trainingImages.map TrainingImage.subjectID }
      (RECOG_OK, { s with model := some newModel, faceImages := [] })

/-- Modelled from the spec: `saveTrainingData` (implementation file missing) —
serializes the owned `Model` into the named file; a NULL file name (modelled
as `none`) selects the configured default training-data file (header doc,
line 69). -/
def saveTrainingData (fs : FileStore) (fileName : Option String)
    (s : RecognitionState) : Int × FileStore :=
  let name := fileName.getD s.defaultTrainingDataFile
  match s.model with
  | none => (ERR_FILE_ACCESS, fs)
  | some m =>
    (RECOG_OK, fun f => if f = name then some (encodeModel m) else fs f)

/-- Modelled from the spec: `loadTrainingData` (implementation file missing) —
deserializes a `Model` from the named file, replacing the owned one; a NULL
file name selects the configured default (header doc, line 75); "fails if file
missing/corrupt" (spec §4.1), leaving the state unchanged. -/
def loadTrainingData (fs : FileStore) (fileName : Option String)
    (s : RecognitionState) : Int × RecognitionState :=
  let name := fileName.getD s.defaultTrainingDataFile
  match fs name with
  | none => (ERR_FILE_ACCESS, s)
  | some content =>
    match decodeModel content with
    | none => (ERR_FILE_ACCESS, s)
    | some m => (RECOG_OK, { s with model := some m })

end Recognition

/-! ## Serialization lemmas -/

theorem decNat_encNat (n : Nat) (r : FileData) :
    decNat (encNat n ++ r) = some (n, r) := rfl

theorem decRat_encRat (q : ℚ) (r : FileData) :
    decRat (encRat q ++ r) = some (q, r) := rfl

theorem decCount_flatMap {α : Type} (dec : FileData → Option (α × FileData))
    (enc : α → FileData)
    (h : ∀ (x : α) (r : FileData), dec (enc x ++ r) = some (x, r)) :
    ∀ (l : List α) (r : FileData),
      decCount dec l.length (l.flatMap enc ++ r) = some (l, r) := by
  intro l
  induction l with
  | nil => intro r; simp [decCount]
  | cons a t ih =>
    intro r
    rw [List.flatMap_cons, List.append_assoc, List.length_cons]
    simp [decCount, h a, ih r]

theorem decRatList_encRatList (l : List ℚ) (r : FileData) :
    decRatList (encRatList l ++ r) = some (l, r) := by
  rw [encRatList, List.append_assoc]
  simp [decRatList, decNat_encNat, decCount_flatMap decRat encRat decRat_encRat]

theorem decImage_encImage (img : IplImage) (r : FileData) :
    decImage (encImage img ++ r) = some (img, r) := by
  rw [encImage, List.append_assoc, List.append_assoc]
  simp [decImage, decNat_encNat, decRatList_encRatList]

theorem decModelAux_encodeModel (m : Model) (hwf : m.wf) (r : FileData) :
    decModelAux (encodeModel m ++ r) = some (m, r) := by
  obtain ⟨hproj, heig⟩ := hwf
  rw [encodeModel]
  repeat rw [List.append_assoc]
  simp only [decModelAux, decNat_encNat, Option.some_bind, decImage_encImage,
    decCount_flatMap decImage encImage decImage_encImage]
  rw [heig]
  simp only [Option.some_bind, decCount_flatMap decRat encRat decRat_encRat,
    decCount_flatMap decRatList encRatList decRatList_encRatList]
  rw [hproj]
  simp only [Option.some_bind, decCount_flatMap decNat encNat decNat_encNat,
    Option.map_some']

theorem decodeModel_encodeModel (m : Model) (hwf : m.wf) :
    decodeModel (encodeModel m) = some m := by
  have h := decModelAux_encodeModel m hwf []
  rw [List.append_nil] at h
  rw [decodeModel, h]

theorem decCount_length {α : Type} (dec : FileData → Option (α × FileData)) :
    ∀ (n : Nat) (d : FileData) (l : List α) (d' : FileData),
      decCount dec n d = some (l, d') → l.length = n := by
  intro n
  induction n with
  | zero =>
    intro d l d' h
    simp [decCount] at h
    simp [h.1]
  | succ k ih =>
    intro d l d' h
    cases hd : dec d with
    | none => simp [decCount, hd] at h
    | some ad =>
      obtain ⟨a, d₁⟩ := ad
      cases hc : decCount dec k d₁ with
      | none => simp [decCount, hd, hc] at h
      | some ld =>
        obtain ⟨l₁, d₂⟩ := ld
        simp only [decCount, hd, hc] at h
        obtain ⟨hl, _⟩ := Prod.mk.injEq .. ▸ Option.some_inj.mp h
        rw [← hl, List.length_cons, ih d₁ l₁ d₂ hc]

theorem decModelAux_wf (d : FileData) (m : Model) (d' : FileData)
    (h : decModelAux d = some (m, d')) : m.wf := by
  rw [decModelAux] at h
  cases h₁ : decNat d with
  | none => rw [h₁] at h; cases h
  | some td =>
    obtain ⟨t, d₁⟩ := td
    rw [h₁] at h
    simp only [Option.some_bind] at h
    cases h₂ : decNat d₁ with
    | none => rw [h₂] at h; cases h
    | some ed =>
      obtain ⟨e, d₂⟩ := ed
      rw [h₂] at h
      simp only [Option.some_bind] at h
      cases h₃ : decImage d₂ with
      | none => rw [h₃] at h; cases h
      | some ad =>
        obtain ⟨avg, d₃⟩ := ad
        rw [h₃] at h
        simp only [Option.some_bind] at h
        cases h₄ : decCount decImage e d₃ with
        | none => rw [h₄] at h; cases h
        | some vd =>
          obtain ⟨evs, d₄⟩ := vd
          rw [h₄] at h
          simp only [Option.some_bind] at h
          cases h₅ : decCount decRat e d₄ with
          | none => rw [h₅] at h; cases h
          | some wd =>
            obtain ⟨evals, d₅⟩ := wd
            rw [h₅] at h
            simp only [Option.some_bind] at h
            cases h₆ : decCount decRatList t d₅ with
            | none => rw [h₆] at h; cases h
            | some pd =>
              obtain ⟨projs, d₆⟩ := pd
              rw [h₆] at h
              simp only [Option.some_bind] at h
              cases h₇ : decCount decNat t d₆ with
              | none => rw [h₇] at h; cases h
              | some sd =>
                obtain ⟨ids, d₇⟩ := sd
                rw [h₇] at h
                simp only [Option.map_some', Option.some_inj, Prod.mk.injEq] at h
                obtain ⟨hm, _⟩ := h
                rw [← hm]
                refine ⟨?_, ?_⟩
                · rw [decCount_length decRatList t d₅ projs d₆ h₆,
                    decCount_length decNat t d₆ ids d₇ h₇]
                · rw [decCount_length decImage e d₃ evs d₄ h₄,
                    decCount_length decRat e d₄ evals d₅ h₅]

theorem decodeModel_wf (d : FileData) (m : Model)
    (h : decodeModel d = some m) : m.wf := by
  rw [decodeModel] at h
  cases ha : decModelAux d with
  | none => rw [ha] at h; cases h
  | some md =>
    obtain ⟨m₁, rest⟩ := md
    rw [ha] at h
    cases rest with
    | nil =>
      simp only [Option.some_inj] at h
      exact h ▸ decModelAux_wf d m₁ [] ha
    | cons x xs => cases h

/-! ## Concrete instances used by the witness theorems -/

/-- A 1×1 face image. -/
def imgW : IplImage := ⟨1, 1, [0]⟩

/-- A 1×1 eigenface. -/
def eigW : IplImage := ⟨1, 1, [1]⟩

/-- A tiny trained model: one eigenface, one training face of subject 7. -/
def mW : Model := ⟨imgW, [eigW], [1], [[0]], [7]⟩

/-- A component state holding `mW`, with a low recognition threshold. -/
def sW : RecognitionState :=
  ⟨1 / 2, EUCLIDIAN_DISTANCE, ['p', 'g', 'm'], DEFAULT_TRAINING_DATA_FILE, [], some mW⟩

/-- The same state with a threshold no training face can reach. -/
def sW2 : RecognitionState := { sW with recogThreshold := 2 }

/-- A state with a raw training image still held and no model. -/
def sW0 : RecognitionState := { sW with faceImages := [⟨7, imgW⟩], model := none }

/-- A training image of subject 7. -/
def tiW : TrainingImage := ⟨7, imgW⟩

/-- A 2×1 query face, mismatching the 1×1 training images. -/
def badW : IplImage := ⟨2, 1, [0, 0]⟩

/-- An external-library stand-in whose PCA call always succeeds. -/
def pcaW : List IplImage → Option PCAResult := fun _ => some ⟨imgW, [eigW], [1]⟩

/-- An external-library stand-in whose PCA call always fails. -/
def pcaNoneW : List IplImage → Option PCAResult := fun _ => none

/-- An empty file store. -/
def fsW : FileStore := fun _ => none

/-- A file store whose every file exists but holds unparsable content. -/
def fsBadW : FileStore := fun _ => some [FileTok.ratTok 1]

/-! ## Claim theorems -/

/-- C9: the header declares `char imageExtension[4]`, so the C-string copy
performed by `initialize` stays within the buffer exactly when the
`faceImageExtension` argument has length at most 3; any longer extension
overruns the buffer's capacity. -/
theorem initialize_extension_capacity (ext : List Char) :
    initializeExtensionSafe ext ↔ ext.length ≤ 3 := by
  rw [initializeExtensionSafe, strcpyInBounds, IMAGE_EXTENSION_CAPACITY]
  omega

/-- C10: a NULL `fileName` argument (modelled as `none`) makes
`saveTrainingData` and `loadTrainingData` behave exactly as a call made with
the configured `defaultTrainingDataFile`. -/
theorem null_filename_uses_default (fs : FileStore) (s : RecognitionState) :
    Recognition.saveTrainingData fs none s =
      Recognition.saveTrainingData fs (some s.defaultTrainingDataFile) s ∧
    Recognition.loadTrainingData fs none s =
      Recognition.loadTrainingData fs (some s.defaultTrainingDataFile) s :=
  ⟨rfl, rfl⟩

/-- C6: `initialize` stores exactly the four configuration fields and returns
success; the model and the raw-image store are untouched. -/
theorem initialize_sets_config_only (th : ℚ) (dt : Nat) (ext : List Char)
    (df : String) (s : RecognitionState) :
    Recognition.initializeConfig th dt ext df s =
      (RECOG_OK,
        { s with
          recogThreshold := th
          distanceType := dt
          imageExtension := ext
          defaultTrainingDataFile := df }) ∧
    ((Recognition.initializeConfig th dt ext df s).2).model = s.model ∧
    ((Recognition.initializeConfig th dt ext df s).2).faceImages = s.faceImages :=
  ⟨rfl, rfl, rfl⟩

/-- C5: `train` returns the no-images failure status when no training images
were loaded, and the library-call failure status when the external PCA call
fails; in both cases the state is unchanged. -/
theorem train_failure_status (pca : List IplImage → Option PCAResult)
    (imgs : List TrainingImage) (s : RecognitionState) :
    (imgs = [] → Recognition.train pca imgs s = (ERR_NO_TRAINING_IMAGES, s)) ∧
    (imgs ≠ [] → pca (imgs.map TrainingImage.image) = none →
      Recognition.train pca imgs s = (ERR_LIBRARY_CALL, s)) := by
  constructor
  · intro h
    subst h
    rfl
  · intro hne hpca
    rw [Recognition.train, if_neg (by simpa using hne), hpca]

/-- C5 witness: training with an empty image list, and with a failing library
call, each return their failure status and leave the state unchanged. -/
theorem train_failure_status_witness :
    Recognition.train pcaNoneW [] sW = (ERR_NO_TRAINING_IMAGES, sW) ∧
    Recognition.train pcaNoneW [tiW] sW = (ERR_LIBRARY_CALL, sW) :=
  ⟨(train_failure_status pcaNoneW [] sW).1 rfl,
   (train_failure_status pcaNoneW [tiW] sW).2 (by simp) rfl⟩

/-- C7 (amended): the failures arising in the `int`-returning operations are
surfaced synchronously as integer status codes distinct from success —
`loadTrainingData` returns the file-access failure status, with the state
unchanged, both when the file is missing and when its content does not
deserialize, and no failure status equals `RECOG_OK` — whereas a dimension
mismatch between a query face and the training images is not surfaced as a
status code: `recognizeFaces` returns only a result vector (header line 88),
and the mismatched face yields no results, per its stated precondition
(header line 86). -/
theorem failure_status_codes (fs : FileStore) (name : Option String)
    (s : RecognitionState) :
    (fs (name.getD s.defaultTrainingDataFile) = none →
      Recognition.loadTrainingData fs name s = (ERR_FILE_ACCESS, s)) ∧
    (∀ content, fs (name.getD s.defaultTrainingDataFile) = some content →
      decodeModel content = none →
      Recognition.loadTrainingData fs name s = (ERR_FILE_ACCESS, s)) ∧
    (ERR_FILE_ACCESS ≠ RECOG_OK ∧ ERR_NO_TRAINING_IMAGES ≠ RECOG_OK ∧
      ERR_LIBRARY_CALL ≠ RECOG_OK) ∧
    (∀ (m : Model) (f : IplImage) (resultsNo : Nat), s.model = some m →
      f.width ≠ m.averagedImage.width ∨ f.height ≠ m.averagedImage.height →
      Recognition.recognizeOneFace s m resultsNo f = [] ∧
      Recognition.recognizeFaces s [f] resultsNo = []) := by
  refine ⟨?_, ?_, by decide, ?_⟩
  · intro h
    rw [Recognition.loadTrainingData]
    rw [h]
  · intro content hc hdec
    rw [Recognition.loadTrainingData]
    rw [hc]
    show (match decodeModel content with
      | none => (ERR_FILE_ACCESS, s)
      | some m => (RECOG_OK, { s with model := some m })) = (ERR_FILE_ACCESS, s)
    rw [hdec]
  · intro m f resultsNo hm hmis
    have hone : Recognition.recognizeOneFace s m resultsNo f = [] := by
      rw [Recognition.recognizeOneFace, if_neg]
      intro hcon
      rcases hmis with hx | hx
      · exact hx hcon.1
      · exact hx hcon.2
    refine ⟨hone, ?_⟩
    rw [Recognition.recognizeFaces, hm]
    simp [hone]

/-- C7 witness: loading from a store without the file, and from a store whose
file holds unparsable content, both return the file-access failure status;
recognizing the mismatched 2×1 face yields no results, not a status code. -/
theorem failure_status_codes_witness :
    Recognition.loadTrainingData fsW (some "a.xml") sW = (ERR_FILE_ACCESS, sW) ∧
    Recognition.loadTrainingData fsBadW (some "a.xml") sW = (ERR_FILE_ACCESS, sW) ∧
    Recognition.recognizeOneFace sW mW 1 badW = [] ∧
    Recognition.recognizeFaces sW [badW] 1 = [] :=
  ⟨(failure_status_codes fsW (some "a.xml") sW).1 rfl,
   (failure_status_codes fsBadW (some "a.xml") sW).2.1 [FileTok.ratTok 1] rfl rfl,
   (failure_status_codes fsW (some "a.xml") sW).2.2.2 mW badW 1 rfl
     (Or.inl (by decide))⟩

/-- C7 counterexample: the claim as frozen — every enumerated failure,
dimension mismatch included, is surfaced to the caller as an integer status
code — is false on this code: at the concrete 2×1 query face, whose width
differs from the training images', the recognition call returns an ordinary,
empty result vector; `recognizeFaces` returns only results by its header
signature, so no integer status code reaches the caller for this failure. -/
theorem dimension_mismatch_not_a_status_code :
    badW.width ≠ mW.averagedImage.width ∧
    Recognition.recognizeFaces sW [badW] 3 = [] :=
  ⟨by decide, rfl⟩

/-- C8: whenever `train` succeeds — the training faces have been projected
onto the eigenspace — the resulting state retains no raw face images. -/
theorem train_releases_raw_images (pca : List IplImage → Option PCAResult)
    (imgs : List TrainingImage) (s : RecognitionState)
    (h : (Recognition.train pca imgs s).1 = RECOG_OK) :
    ((Recognition.train pca imgs s).2).faceImages = [] := by
  by_cases he : imgs.isEmpty
  · rw [Recognition.train, if_pos he] at h
    norm_num [ERR_NO_TRAINING_IMAGES, RECOG_OK] at h
  · cases hp : pca (imgs.map TrainingImage.image) with
    | none =>
      rw [Recognition.train, if_neg he] at h
      simp only [hp] at h
      norm_num [ERR_LIBRARY_CALL, RECOG_OK] at h
    | some p =>
      simp [Recognition.train, he, hp]

/-- C8 witness: a successful training run starting from a state that still
holds a raw training image ends with no raw images retained. -/
theorem train_releases_raw_images_witness :
    ((Recognition.train pcaW [tiW] sW0).2).faceImages = [] :=
  train_releases_raw_images pcaW [tiW] sW0 rfl

/-- C4: saving a trained model to a file and loading from that same file
restores the complete model — mean face, eigenfaces, eigenvalues, projections
and subject labels — into any component state. -/
theorem save_load_roundtrip (fs : FileStore) (name : String)
    (s s₂ : RecognitionState) (m : Model) (hm : s.model = some m)
    (hwf : m.wf) :
    (Recognition.saveTrainingData fs (some name) s).1 = RECOG_OK ∧
    Recognition.loadTrainingData (Recognition.saveTrainingData fs (some name) s).2
        (some name) s₂ = (RECOG_OK, { s₂ with model := some m }) := by
  have hsave : Recognition.saveTrainingData fs (some name) s =
      (RECOG_OK, fun f => if f = name then some (encodeModel m) else fs f) := by
    rw [Recognition.saveTrainingData]
    rw [hm]
    rfl
  rw [hsave]
  refine ⟨rfl, ?_⟩
  rw [Recognition.loadTrainingData]
  simp [decodeModel_encodeModel m hwf]

/-- C3: a state whose model satisfies the data-model invariant — projections
and subject identifiers in equal number, eigenfaces and eigenvalues in equal
number — still satisfies it after `train`, after `loadTrainingData`, and after
`initialize`; the successful cases install a model satisfying it outright.
(`saveTrainingData` and `recognizeFaces` return no new component state.) -/
theorem model_invariant_maintained (s : RecognitionState) (hs : s.wf)
    (pca : List IplImage → Option PCAResult) (imgs : List TrainingImage)
    (fs : FileStore) (name : Option String) (th : ℚ) (dt : Nat)
    (ext : List Char) (df : String) :
    ((Recognition.train pca imgs s).2).wf ∧
    ((Recognition.loadTrainingData fs name s).2).wf ∧
    ((Recognition.initializeConfig th dt ext df s).2).wf := by
  refine ⟨?_, ?_, ?_⟩
  · by_cases he : imgs.isEmpty
    · simpa [Recognition.train, he] using hs
    · cases hp : pca (imgs.map TrainingImage.image) with
      | none => simpa [Recognition.train, he, hp] using hs
      | some p =>
        simp only [Recognition.train, if_neg he, hp]
        simp [RecognitionState.wf, Model.wf, List.length_take]
  · cases hf : fs (name.getD s.defaultTrainingDataFile) with
    | none => simpa [Recognition.loadTrainingData, hf] using hs
    | some content =>
      cases hd : decodeModel content with
      | none => simpa [Recognition.loadTrainingData, hf, hd] using hs
      | some m =>
        simpa [Recognition.loadTrainingData, hf, hd, RecognitionState.wf]
          using decodeModel_wf content m hd
  · simpa [Recognition.initializeConfig, RecognitionState.wf] using hs

/-- C3 witness: starting from the tiny well-formed state, training, loading
and initializing each leave a well-formed state. -/
theorem model_invariant_maintained_witness :
    ((Recognition.train pcaW [tiW] sW).2).wf ∧
    ((Recognition.loadTrainingData fsW none sW).2).wf ∧
    ((Recognition.initializeConfig 1 0 ['j', 'p', 'g'] "t.xml" sW).2).wf :=
  model_invariant_maintained sW ⟨rfl, rfl⟩ pcaW [tiW] fsW none 1 0
    ['j', 'p', 'g'] "t.xml"

/-- C1: with a trained model, `recognizeFaces` processes every query face in
order; a face of matching dimensions whose best confidence reaches the
threshold is projected into eigenspace, every stored training projection is
scored by the configured distance metric, and the face's results are the
first `resultsNo` entries of those scores arranged in order of decreasing
confidence. -/
theorem recognizeFaces_returns_topN (s : RecognitionState) (m : Model)
    (faces : List IplImage) (f : IplImage) (resultsNo : Nat)
    (hm : s.model = some m) (hf : f ∈ faces)
    (hw : f.width = m.averagedImage.width)
    (hh : f.height = m.averagedImage.height)
    (hthr : ∃ r ∈ scoreList s m (projectImage m f),
      s.recogThreshold ≤ r.confidence) :
    Recognition.recognizeFaces s faces resultsNo =
      faces.flatMap (Recognition.recognizeOneFace s m resultsNo) ∧
    ∃ sorted : List RecognitionResult,
      sorted.Perm (scoreList s m (projectImage m f)) ∧
      List.Sorted confGE sorted ∧
      Recognition.recognizeOneFace s m resultsNo f = sorted.take resultsNo := by
  obtain ⟨r₀, hr₀, hc₀⟩ := hthr
  constructor
  · rw [Recognition.recognizeFaces, hm]
  · refine ⟨List.insertionSort confGE (scoreList s m (projectImage m f)),
      List.perm_insertionSort confGE _, List.sorted_insertionSort confGE _, ?_⟩
    rw [Recognition.recognizeOneFace, if_pos ⟨hw, hh⟩]
    rw [Recognition.findClosestFaces]
    cases hsort : List.insertionSort confGE (scoreList s m (projectImage m f)) with
    | nil => simp
    | cons b rest =>
      have hperm : List.Perm (b :: rest) (scoreList s m (projectImage m f)) := by
        rw [← hsort]
        exact List.perm_insertionSort confGE _
      have hsorted : List.Sorted confGE (b :: rest) :=
        hsort ▸ List.sorted_insertionSort confGE _
      have hmem : r₀ ∈ b :: rest := hperm.mem_iff.mpr hr₀
      have hb : s.recogThreshold ≤ b.confidence := by
        rcases List.mem_cons.mp hmem with heq | hmem₂
        · exact heq ▸ hc₀
        · exact le_trans hc₀ ((List.sorted_cons.mp hsorted).1 r₀ hmem₂)
      show (if b.confidence < s.recogThreshold then [⟨0, b.confidence⟩]
        else (b :: rest).take resultsNo) = (b :: rest).take resultsNo
      rw [if_neg (not_lt.mpr hb)]

/-- Evaluation of the tiny state's score list: subject 7 at distance 0, hence
confidence 1, under either threshold configuration. -/
theorem scoreList_eval (s : RecognitionState) (hdt : s.distanceType = EUCLIDIAN_DISTANCE) :
    scoreList s mW (projectImage mW imgW) = [⟨7, 1⟩] := by
  norm_num [scoreList, projectImage, mW, imgW, eigW, distSq, euclideanDistSq,
    mahalanobisDistSq, sqDiffs, confidenceOfDistSq, hdt, EUCLIDIAN_DISTANCE,
    MAHALANOBIS_DISTANCE]

/-- C1 witness: on the tiny trained state, recognizing the matching 1×1 face
yields the top-2 results of the sorted score list. -/
theorem recognizeFaces_returns_topN_witness :
    Recognition.recognizeFaces sW [imgW] 2 =
      [imgW].flatMap (Recognition.recognizeOneFace sW mW 2) ∧
    ∃ sorted : List RecognitionResult,
      sorted.Perm (scoreList sW mW (projectImage mW imgW)) ∧
      List.Sorted confGE sorted ∧
      Recognition.recognizeOneFace sW mW 2 imgW = sorted.take 2 :=
  recognizeFaces_returns_topN sW mW [imgW] imgW 2 rfl
    (List.mem_singleton.mpr rfl) rfl rfl
    (by
      rw [scoreList_eval sW rfl]
      exact ⟨⟨7, 1⟩, by simp, by norm_num [sW]⟩)

/-- C2: with a trained model, a query face of matching dimensions whose every
stored-projection confidence falls below the recognition threshold yields
exactly one result, whose person identifier is 0, whatever result count was
requested. -/
theorem recognizeFaces_unknown_below_threshold (s : RecognitionState)
    (m : Model) (f : IplImage) (resultsNo : Nat) (hm : s.model = some m)
    (hw : f.width = m.averagedImage.width)
    (hh : f.height = m.averagedImage.height)
    (hne : scoreList s m (projectImage m f) ≠ [])
    (hall : ∀ r ∈ scoreList s m (projectImage m f),
      r.confidence < s.recogThreshold) :
    ∃ c : ℚ, Recognition.recognizeFaces s [f] resultsNo = [⟨0, c⟩] := by
  have h1 : Recognition.recognizeFaces s [f] resultsNo =
      Recognition.recognizeOneFace s m resultsNo f := by
    rw [Recognition.recognizeFaces, hm]
    simp
  rw [h1, Recognition.recognizeOneFace, if_pos ⟨hw, hh⟩]
  rw [Recognition.findClosestFaces]
  cases hsort : List.insertionSort confGE (scoreList s m (projectImage m f)) with
  | nil =>
    have hperm : List.Perm (scoreList s m (projectImage m f)) [] := by
      rw [← hsort]
      exact (List.perm_insertionSort confGE _).symm
    exact absurd hperm.eq_nil hne
  | cons b rest =>
    have hperm : List.Perm (b :: rest) (scoreList s m (projectImage m f)) := by
      rw [← hsort]
      exact List.perm_insertionSort confGE _
    have hbmem : b ∈ scoreList s m (projectImage m f) :=
      hperm.mem_iff.mp (List.mem_cons_self b rest)
    refine ⟨b.confidence, ?_⟩
    show (if b.confidence < s.recogThreshold then [⟨0, b.confidence⟩]
      else (b :: rest).take resultsNo) = [⟨0, b.confidence⟩]
    rw [if_pos (hall b hbmem)]

/-- C2 witness: on the tiny state with an unreachable threshold, recognizing
the matching 1×1 face returns a single result with person identifier 0, even
though five results were requested. -/
theorem recognizeFaces_unknown_below_threshold_witness :
    ∃ c : ℚ, Recognition.recognizeFaces sW2 [imgW] 5 = [⟨0, c⟩] :=
  recognizeFaces_unknown_below_threshold sW2 mW imgW 5 rfl rfl rfl
    (by rw [scoreList_eval sW2 rfl]; simp)
    (by
      rw [scoreList_eval sW2 rfl]
      intro r hr
      rw [List.mem_singleton.mp hr]
      norm_num [sW2, sW])

/-- C4 witness: the tiny trained model survives a save/load roundtrip. -/
theorem save_load_roundtrip_witness :
    (Recognition.saveTrainingData fsW (some "t.xml") sW).1 = RECOG_OK ∧
    Recognition.loadTrainingData
        (Recognition.saveTrainingData fsW (some "t.xml") sW).2
        (some "t.xml") sW0 = (RECOG_OK, { sW0 with model := some mW }) :=
  save_load_roundtrip fsW "t.xml" sW sW0 mW rfl ⟨rfl, rfl⟩
